import Mathlib

/-!
Verification of the hosts list-aggregation scripts.

The embedding models the text files at the level of their character
content (`List Char`), so that Python's line splitting, `str.strip` and
comment filtering are reproduced faithfully, and models the in-memory
category sets as `Finset String` (Python `set[str]`).

Main modelled source functions:
* `load_existing_data`, `save_data`, `run_plugins` from `scripts/manager.py`;
* `save_to_file` (per-category error catching) and `main` from
  `.github/workflows/unified_updater.py`;
* the write loop of `run_plugins` (which does not catch write errors).
-/

namespace Hosts

/-- Python `str.isspace` on a single character (the Unicode whitespace
code points stripped by `str.strip()` with no argument). -/
def pyIsSpace (c : Char) : Bool :=
  let n := c.toNat
  (9 ≤ n && n ≤ 13) || (28 ≤ n && n ≤ 32) || n = 133 || n = 160 ||
    n = 5760 || (8192 ≤ n && n ≤ 8202) || n = 8232 || n = 8233 ||
    n = 8239 || n = 8287 || n = 12288

/-- Python `line.strip()`: drop whitespace from both ends. -/
def pyStrip (l : List Char) : List Char :=
  ((l.dropWhile pyIsSpace).reverse.dropWhile pyIsSpace).reverse

/-- Python text-mode (universal-newline) translation applied while
reading a file: `"\r\n"` and `"\r"` both become `"\n"`. -/
def normalizeNewlines : List Char → List Char
  | [] => []
  | [c] => if c = '\r' then ['\n'] else [c]
  | c :: d :: rest =>
    if c = '\r' then
      if d = '\n' then '\n' :: normalizeNewlines rest
      else '\n' :: normalizeNewlines (d :: rest)
    else c :: normalizeNewlines (d :: rest)

/-- Split already-normalized content into its lines (without the
terminating `'\n'`), the way `for line in f` iterates a file: a final
fragment with no terminator still yields a line, and empty content
yields no lines. -/
def splitLinesAux (cur : List Char) : List Char → List (List Char)
  | [] => if cur.isEmpty then [] else [cur.reverse]
  | c :: rest =>
    if c = '\n' then cur.reverse :: splitLinesAux [] rest
    else splitLinesAux (c :: cur) rest

/-- The lines Python's `for line in f` yields for a file whose raw
content is `l`, each with its terminator removed (the source strips
every line anyway). -/
def splitUniv (l : List Char) : List (List Char) :=
  splitLinesAux [] (normalizeNewlines l)

/-- The filter of `load_existing_data`: keep a stripped line iff it is
non-blank and does not start with `';'` or `'#'`. -/
def keepLine : List Char → Bool
  | [] => false
  | c :: _ => !(c == ';') && !(c == '#')

/-- The loop body of `load_existing_data`: strip the line, then
`data.add(line)` unless it is blank or a comment. -/
def loadStep (data : Finset String) (line : List Char) : Finset String :=
  let l := pyStrip line
  if keepLine l then insert (String.mk l) data else data

/-- `load_existing_data(filepath)` from `scripts/manager.py` (and the
identical function in `unified_updater.py`): `none` models an absent
file; otherwise every line is stripped and added to the set unless it
is blank or starts with `';'` or `'#'`. -/
def load_existing_data (file : Option (List Char)) : Finset String :=
  match file with
  | none => ∅
  | some content => (splitUniv content).foldl loadStep ∅

/-- Python `sep.join(xs)`. -/
def pyJoin (sep : List Char) : List (List Char) → List Char
  | [] => []
  | [x] => x
  | x :: y :: rest => x ++ sep ++ pyJoin sep (y :: rest)

/-- Decimal digit character, as produced by Python `str(int)`. -/
def digitChar (d : Nat) : Char :=
  if d = 0 then '0' else if d = 1 then '1' else if d = 2 then '2'
  else if d = 3 then '3' else if d = 4 then '4' else if d = 5 then '5'
  else if d = 6 then '6' else if d = 7 then '7' else if d = 8 then '8'
  else '9'

/-- Structural helper for `natToDigits`; the fuel argument only bounds
the recursion depth and never runs out when it starts at `n + 1`. -/
def natToDigitsAux : Nat → Nat → List Char
  | 0, _ => []
  | fuel + 1, n =>
    if n < 10 then [digitChar n]
    else natToDigitsAux fuel (n / 10) ++ [digitChar (n % 10)]

/-- Python `str(n)` for a natural number: its decimal digits. -/
def natToDigits (n : Nat) : List Char :=
  natToDigitsAux (n + 1) n

/-- Lexicographic comparison of two character sequences by code
point — how Python compares `str` values. -/
def lexLeChars : List Char → List Char → Bool
  | [], _ => true
  | _ :: _, [] => false
  | a :: as, b :: bs =>
    if a.toNat < b.toNat then true
    else if b.toNat < a.toNat then false
    else lexLeChars as bs

/-- The string order Python `sorted` uses, as a proposition. -/
def pyStrLe (a b : String) : Prop := lexLeChars a.data b.data = true

instance : DecidableRel pyStrLe :=
  fun a b => instDecidableEqBool (lexLeChars a.data b.data) true

theorem lexLeChars_cons_iff (x y : Char) (xs ys : List Char) :
    lexLeChars (x :: xs) (y :: ys) = true ↔
      (x.toNat < y.toNat ∨
        (x.toNat = y.toNat ∧ lexLeChars xs ys = true)) := by
  by_cases h1 : x.toNat < y.toNat
  · simp [lexLeChars, h1]
  · by_cases h2 : y.toNat < x.toNat
    · simp [lexLeChars, h1, h2]
      omega
    · have he : x.toNat = y.toNat := by omega
      simp [lexLeChars, h1, h2, he]

theorem lexLeChars_total (a b : List Char) :
    lexLeChars a b = true ∨ lexLeChars b a = true := by
  induction a generalizing b with
  | nil => exact Or.inl rfl
  | cons x xs ih =>
    cases b with
    | nil => exact Or.inr rfl
    | cons y ys =>
      rw [lexLeChars_cons_iff, lexLeChars_cons_iff]
      rcases Nat.lt_trichotomy x.toNat y.toNat with h | h | h
      · exact Or.inl (Or.inl h)
      · rcases ih ys with hr | hr
        · exact Or.inl (Or.inr ⟨h, hr⟩)
        · exact Or.inr (Or.inr ⟨h.symm, hr⟩)
      · exact Or.inr (Or.inl h)

theorem char_eq_of_toNat_eq {a b : Char} (h : a.toNat = b.toNat) :
    a = b := by
  have h1 := Char.ofNat_toNat a
  rw [h] at h1
  rw [← h1, Char.ofNat_toNat b]

theorem lexLeChars_antisymm {a b : List Char}
    (h1 : lexLeChars a b = true) (h2 : lexLeChars b a = true) :
    a = b := by
  induction a generalizing b with
  | nil =>
    cases b with
    | nil => rfl
    | cons y ys => simp [lexLeChars] at h2
  | cons x xs ih =>
    cases b with
    | nil => simp [lexLeChars] at h1
    | cons y ys =>
      rw [lexLeChars_cons_iff] at h1 h2
      rcases h1 with h1 | ⟨e1, r1⟩
      · rcases h2 with h2 | ⟨e2, r2⟩ <;> omega
      · rcases h2 with h2 | ⟨e2, r2⟩
        · omega
        · rw [char_eq_of_toNat_eq e1, ih r1 r2]

theorem lexLeChars_trans {a b c : List Char}
    (h1 : lexLeChars a b = true) (h2 : lexLeChars b c = true) :
    lexLeChars a c = true := by
  induction a generalizing b c with
  | nil => rfl
  | cons x xs ih =>
    cases b with
    | nil => simp [lexLeChars] at h1
    | cons y ys =>
      cases c with
      | nil => simp [lexLeChars] at h2
      | cons z zs =>
        rw [lexLeChars_cons_iff] at h1 h2 ⊢
        rcases h1 with h1 | ⟨e1, r1⟩
        · rcases h2 with h2 | ⟨e2, r2⟩ <;> exact Or.inl (by omega)
        · rcases h2 with h2 | ⟨e2, r2⟩
          · exact Or.inl (by omega)
          · exact Or.inr ⟨by omega, ih r1 r2⟩

instance : IsTotal String pyStrLe :=
  ⟨fun a b => lexLeChars_total a.data b.data⟩

instance : IsTrans String pyStrLe :=
  ⟨fun _ _ _ h1 h2 => lexLeChars_trans h1 h2⟩

instance : IsAntisymm String pyStrLe :=
  ⟨fun a b h1 h2 => by
    cases a with
    | mk da => cases b with
      | mk db => exact congrArg String.mk (lexLeChars_antisymm h1 h2)⟩

/-- Sorting any list enumeration of a multiset of strings: the
congruence proof shows the outcome is independent of the enumeration
order, which is exactly why Python's `sorted(list(s))` is
deterministic even though `list(s)` enumerates the set in an
unspecified order. -/
def sortedMultiset (m : Multiset String) : List String :=
  Quot.liftOn m (fun l => l.insertionSort pyStrLe)
    (fun l1 l2 h =>
      List.eq_of_perm_of_sorted
        (((List.perm_insertionSort _ l1).trans h).trans
          (List.perm_insertionSort _ l2).symm)
        (List.sorted_insertionSort _ l1)
        (List.sorted_insertionSort _ l2))

/-- Python `sorted(list(data))`: the elements of the set in ascending
lexicographic string order. -/
def sorted_data (data : Finset String) : List String :=
  sortedMultiset data.val

/-- The lines `save_data(filepath, data, source_names)` of
`scripts/manager.py` writes: a four-line `';'` header (timestamp,
sources, `len(sorted_data)`, separator) followed by
`sorted(list(data))` — a plain ascending lexicographic sort of the
raw token strings — one token per line. -/
def save_data_lines (timestamp : String) (source_names : List String)
    (data : Finset String) : List (List Char) :=
  [(String.data ("; Updated at: ")) ++ timestamp.data,
   (String.data ("; Sources included: ")) ++
     pyJoin (String.data (", ")) (source_names.map String.data),
   (String.data ("; Total Entries: ")) ++ natToDigits data.card,
   String.data ("; --------------------------------------------")]
  ++ (sorted_data data).map String.data

/-- The raw character content `save_data` writes: each line followed
by `'\n'` (Python `f.write(f"{item}\n")`). -/
def save_data (timestamp : String) (source_names : List String)
    (data : Finset String) : List Char :=
  ((save_data_lines timestamp source_names data).map (· ++ ['\n'])).flatten

/-- The four in-memory category sets of `run_plugins`
(`aggregated_data` in `scripts/manager.py`). -/
structure AggData where
  drop_ip : Finset String
  pass_ip : Finset String
  whitelist_domain : Finset String
  blacklist_domain : Finset String
deriving DecidableEq

/-- One `key, val` pair of a plugin result merged into
`aggregated_data`: `if key in aggregated_data and val:
aggregated_data[key].update(val)` — union only when the key is one of
the four known categories and the value set is non-empty (a Python
falsy empty set is skipped, which is also a union no-op). -/
def mergeKV (st : AggData) (kv : String × Finset String) : AggData :=
  if kv.2 = ∅ then st
  else if kv.1 = "drop_ip" then { st with drop_ip := st.drop_ip ∪ kv.2 }
  else if kv.1 = "pass_ip" then { st with pass_ip := st.pass_ip ∪ kv.2 }
  else if kv.1 = "whitelist_domain" then
    { st with whitelist_domain := st.whitelist_domain ∪ kv.2 }
  else if kv.1 = "blacklist_domain" then
    { st with blacklist_domain := st.blacklist_domain ∪ kv.2 }
  else st

/-- A source plugin as `run_plugins` sees it: a module name and the
outcome of calling its `fetch()`.  `Except.error` models a raised
exception (network failure or a module that fails to load); `Except.ok`
carries the returned dict as an association list. -/
structure Plugin where
  name : String
  fetch : Except Unit (List (String × Finset String))

/-- The body of the plugin loop of `run_plugins` for one plugin: a
raised exception is caught and leaves the state untouched; a truthy
(non-empty) result dict appends the module to `active_sources` and
merges every item; an empty dict contributes nothing. -/
def processPlugin (st : AggData × List String) (p : Plugin) :
    AggData × List String :=
  match p.fetch with
  | .error _ => st
  | .ok result =>
    if result.isEmpty then st
    else (result.foldl mergeKV st.1, st.2 ++ [p.name])

/-- The plugin phase of `run_plugins`: fold the plugin loop over the
discovered plugins, starting from the loaded data and an empty
`active_sources` list. -/
def runPlugins (plugins : List Plugin) (init : AggData) :
    AggData × List String :=
  plugins.foldl processPlugin (init, [])

/-- Whether `run_plugins` appends a plugin to `active_sources`: its
`fetch()` returned without raising and the returned dict was truthy
(non-empty) — regardless of whether any of its category sets is
non-empty or even recognized. -/
def pluginContributes (p : Plugin) : Bool :=
  match p.fetch with
  | .error _ => false
  | .ok r => !r.isEmpty

/-- Componentwise inclusion of the four category sets. -/
def aggLE (x y : AggData) : Prop :=
  x.drop_ip ⊆ y.drop_ip ∧ x.pass_ip ⊆ y.pass_ip ∧
  x.whitelist_domain ⊆ y.whitelist_domain ∧
  x.blacklist_domain ⊆ y.blacklist_domain

/-- The write phase of `run_plugins`: `FILES_MAP` in insertion order,
each category saved with `save_data`.  Returned as
(file name, file content) pairs. -/
def managerFiles (agg : AggData) (sources : List String)
    (ts : String) : List (String × List Char) :=
  [("drop.txt", save_data ts sources agg.drop_ip),
   ("pass.txt", save_data ts sources agg.pass_ip),
   ("whitelist-domain.txt", save_data ts sources agg.whitelist_domain),
   ("blacklist-domain.txt", save_data ts sources agg.blacklist_domain)]

/-- A whole `run_plugins()` run: plugin phase then write phase. -/
def managerRun (plugins : List Plugin) (init : AggData)
    (ts : String) : List (String × List Char) :=
  managerFiles (runPlugins plugins init).1 (runPlugins plugins init).2 ts

/-- The write loop at the end of `run_plugins` executed against a
fallible file system (`canWrite` says which paths can be opened for
writing).  `save_data` contains no `try`/`except`, so the first
failing write raises out of the loop: the files written so far are
kept, the failing file is reported, and no later file is written. -/
def writeSeq (canWrite : String → Bool) :
    List (String × List Char) → List (String × List Char) × Option String
  | [] => ([], none)
  | (f, c) :: rest =>
    if canWrite f then
      let r := writeSeq canWrite rest
      ((f, c) :: r.1, r.2)
    else ([], some f)

/-- The save phase of `unified_updater.py`: `save_to_file` wraps its
whole body in `try`/`except`, so each category's write succeeds or
fails on its own (`none` = that file's write raised and was caught). -/
def unifiedSaveAll (canWrite : String → Bool)
    (entries : List (String × List Char)) :
    List (String × Option (List Char)) :=
  entries.map (fun e => (e.1, if canWrite e.1 then some e.2 else none))

/-- `fetch_abuseipdb(existing_set)` of `unified_updater.py`: with a
missing API key or a raised request error the existing set is returned
unchanged (`none`); on success the fetched lines are unioned in. -/
def fetch_abuseipdb (resp : Option (Finset String))
    (existing : Finset String) : Finset String :=
  match resp with
  | none => existing
  | some new_ips => existing ∪ new_ips

/-- `fetch_google(existing_set)`: per-URL errors are caught, so the
function always returns `existing ∪ new_ips` where `new_ips` is
whatever subset of prefixes was fetched. -/
def fetch_google (new_ips : Finset String)
    (existing : Finset String) : Finset String :=
  existing ∪ new_ips

/-- `fetch_cloudflare(existing_set)`: same shape as `fetch_google`. -/
def fetch_cloudflare (new_ips : Finset String)
    (existing : Finset String) : Finset String :=
  existing ∪ new_ips

/-- `fetch_aws(existing_set)`: same shape as `fetch_google`. -/
def fetch_aws (new_ips : Finset String)
    (existing : Finset String) : Finset String :=
  existing ∪ new_ips

/-- `fetch_github(existing_ips, existing_domains)` of
`unified_updater.py`.  `resp = none` models `requests.get`/`r.json()`
raising, in which case both accumulators stay empty; on success
`resp = some (ips, ds)` carries the prefix lists of the meta JSON and
the lists under its `domains` field, and the function itself inserts
the hardcoded `"github.com"` and `"githubusercontent.com"`. -/
def fetch_github (resp : Option (Finset String × Finset String))
    (existing_ips existing_domains : Finset String) :
    Finset String × Finset String :=
  match resp with
  | none => (existing_ips, existing_domains)
  | some (ips, ds) =>
    (existing_ips ∪ ips,
     existing_domains ∪ (insert ("github.com")
       (insert ("githubusercontent.com") ds)))

/-- `main()` of `unified_updater.py`, from the loaded sets to the four
sets handed to `save_to_file`: AbuseIPDB into `drop`, then Google,
Cloudflare, GitHub, AWS into `pass` (GitHub also into the whitelist
domains), then the two hardcoded AWS domains, `blacklist` untouched. -/
def unified_main (dropL passL wlL blL : Finset String)
    (abuse : Option (Finset String)) (goog cf : Finset String)
    (gh : Option (Finset String × Finset String)) (aws : Finset String) :
    Finset String × Finset String × Finset String × Finset String :=
  let drop1 := fetch_abuseipdb abuse dropL
  let pass1 := fetch_google goog passL
  let pass2 := fetch_cloudflare cf pass1
  let gres := fetch_github gh pass2 wlL
  let pass4 := fetch_aws aws gres.1
  let wl3 := insert ("aws.amazon.com") (insert ("amazonaws.com") gres.2)
  (drop1, pass4, wl3, blL)

/-- Parse a decimal numeral the way Python's `ipaddress` module does:
non-empty, digits only, no leading zero (except `"0"` itself). -/
def parseDecimal (s : List Char) : Option Nat :=
  if s.isEmpty then none
  else if !(s.all (·.isDigit)) then none
  else if s.length > 1 && s.head? = some '0' then none
  else some (s.foldl (fun n c => n * 10 + (c.toNat - 48)) 0)

/-- Split a character list on a separator character (Python
`s.split(sep)` for a one-character separator). -/
def splitOnChar (sep : Char) (l : List Char) : List (List Char) :=
  splitOnCharAux sep [] l
where
  splitOnCharAux (sep : Char) (cur : List Char) :
      List Char → List (List Char)
  | [] => [cur.reverse]
  | c :: rest =>
    if c = sep then cur.reverse :: splitOnCharAux sep [] rest
    else splitOnCharAux sep (c :: cur) rest

/-- One dotted-quad octet per `ipaddress`: a decimal numeral ≤ 255. -/
def parseOctet (s : List Char) : Option Nat := do
  let n ← parseDecimal s
  if n ≤ 255 then some n else none

/-- A dotted-quad IPv4 address as its 32-bit numeric value, following
Python `ipaddress.IPv4Address`. -/
def parseIPv4Addr (s : List Char) : Option Nat :=
  match splitOnChar '.' s with
  | [a, b, c, d] => do
    let a' ← parseOctet a
    let b' ← parseOctet b
    let c' ← parseOctet c
    let d' ← parseOctet d
    some (((a' * 256 + b') * 256 + c') * 256 + d')
  | _ => none

/-- `ipaddress.ip_network(s, strict=False)` restricted to IPv4 inputs:
the (masked) numeric network address paired with the prefix length; a
bare address gets prefix length 32.  This is the numeric sort key the
ordering rule of the specification refers to. -/
def parseIPv4Network (s : List Char) : Option (Nat × Nat) :=
  match splitOnChar '/' s with
  | [addr] => (parseIPv4Addr addr).map (fun a => (a, 32))
  | [addr, p] => do
    let a ← parseIPv4Addr addr
    let pl ← parseDecimal p
    if pl ≤ 32 then
      some ((a / 2 ^ (32 - pl)) * 2 ^ (32 - pl), pl)
    else none
  | _ => none

/-- Render a 32-bit value as a dotted quad. -/
def formatIPv4 (n : Nat) : List Char :=
  natToDigits (n / 16777216 % 256) ++ ['.'] ++
  natToDigits (n / 65536 % 256) ++ ['.'] ++
  natToDigits (n / 256 % 256) ++ ['.'] ++
  natToDigits (n % 256)

/-- Modelled from the spec: the Canonicalizer of §4.1, which no code
under `src/` implements, restricted to the IPv4 inputs the claims
exercise — trim whitespace, parse as an IP network (a bare address
becoming a `/32` prefix), and re-emit in the family's standard textual
form with an explicit prefix length; anything unparsable (domains,
opaque tokens, and — in this restriction — IPv6) passes through
unchanged. -/
def canonicalizeSpec (raw : String) : String :=
  let t := pyStrip raw.data
  match parseIPv4Network t with
  | some (net, pl) =>
    String.mk (formatIPv4 net ++ ['/'] ++ natToDigits pl)
  | none => String.mk t

/-! ### Infrastructure lemmas about loading and saving -/

theorem loadStep_foldl (lines : List (List Char)) (acc : Finset String) :
    lines.foldl loadStep acc =
      acc ∪ (((lines.map pyStrip).filter keepLine).map String.mk).toFinset := by
  induction lines generalizing acc with
  | nil => simp
  | cons line rest ih =>
    by_cases h : keepLine (pyStrip line)
    · have hstep : loadStep acc line = insert (String.mk (pyStrip line)) acc := by
        simp [loadStep, h]
      rw [List.foldl_cons, hstep, ih]
      simp [h, Finset.insert_union, Finset.union_insert]
    · have hstep : loadStep acc line = acc := by
        simp [loadStep, h]
      rw [List.foldl_cons, hstep, ih]
      simp [h]

theorem splitLinesAux_cons (cur : List Char) (c : Char) (rest : List Char) :
    splitLinesAux cur (c :: rest) =
      if c = '\n' then cur.reverse :: splitLinesAux [] rest
      else splitLinesAux (c :: cur) rest := rfl

theorem splitLinesAux_line (line : List Char) (h : '\n' ∉ line) :
    ∀ (cur rest : List Char),
      splitLinesAux cur (line ++ '\n' :: rest) =
        (cur.reverse ++ line) :: splitLinesAux [] rest := by
  induction line with
  | nil =>
    intro cur rest
    rw [List.nil_append, splitLinesAux_cons, if_pos rfl, List.append_nil]
  | cons c cs ih =>
    intro cur rest
    have hc : ¬ c = '\n' := fun e => h (by simp [e])
    have hcs : '\n' ∉ cs := fun m => h (List.mem_cons_of_mem c m)
    rw [List.cons_append, splitLinesAux_cons, if_neg hc]
    rw [ih hcs (c :: cur) rest]
    simp

theorem splitLinesAux_flatten (lines : List (List Char))
    (h : ∀ l ∈ lines, '\n' ∉ l) :
    splitLinesAux [] ((lines.map (· ++ ['\n'])).flatten) = lines := by
  induction lines with
  | nil => rfl
  | cons line rest ih =>
    rw [List.map_cons, List.flatten_cons]
    have h2 : (line ++ ['\n']) ++ (rest.map (· ++ ['\n'])).flatten =
        line ++ '\n' :: (rest.map (· ++ ['\n'])).flatten := by simp
    rw [h2, splitLinesAux_line line (h line (List.mem_cons_self line rest)) [] _]
    rw [ih fun l hl => h l (List.mem_cons_of_mem line hl)]
    simp

theorem normalizeNewlines_of_no_cr :
    ∀ (l : List Char), '\r' ∉ l → normalizeNewlines l = l
  | [], _ => rfl
  | [c], h => by
    have hc : ¬ c = '\r' := fun e => h (by simp [e])
    simp [normalizeNewlines, hc]
  | c :: d :: rest, h => by
    have hc : ¬ c = '\r' := fun e => h (by simp [e])
    have hr : '\r' ∉ d :: rest := fun m => h (List.mem_cons_of_mem c m)
    simp only [normalizeNewlines, if_neg hc]
    rw [normalizeNewlines_of_no_cr (d :: rest) hr]

theorem pyStrip_cons_not_space (c : Char) (m : List Char)
    (hc : pyIsSpace c = false) :
    ∃ t, pyStrip (c :: m) = c :: t := by
  unfold pyStrip
  rw [List.dropWhile_cons, hc]
  simp only [Bool.false_eq_true, if_false]
  rw [List.reverse_cons, List.dropWhile_append]
  by_cases he : (List.dropWhile pyIsSpace m.reverse).isEmpty
  · rw [if_pos he]
    refine ⟨[], ?_⟩
    simp [List.dropWhile, hc]
  · rw [if_neg he]
    rw [List.reverse_append]
    exact ⟨(List.dropWhile pyIsSpace m.reverse).reverse, rfl⟩

theorem keepLine_pyStrip_semi (m : List Char) :
    keepLine (pyStrip (';' :: m)) = false := by
  obtain ⟨t, ht⟩ := pyStrip_cons_not_space ';' m (by decide)
  rw [ht]
  simp [keepLine]


theorem mem_pyJoin {c : Char} (sep : List Char) (xs : List (List Char))
    (h : c ∈ pyJoin sep xs) : c ∈ sep ∨ ∃ x ∈ xs, c ∈ x := by
  induction xs with
  | nil => simp [pyJoin] at h
  | cons x rest ih =>
    cases rest with
    | nil =>
      simp only [pyJoin] at h
      exact Or.inr ⟨x, List.mem_cons_self x [], h⟩
    | cons y ys =>
      simp only [pyJoin, List.mem_append] at h
      rcases h with (h | h) | h
      · exact Or.inr ⟨x, List.mem_cons_self x (y :: ys), h⟩
      · exact Or.inl h
      · rcases ih h with h | ⟨z, hz, hcz⟩
        · exact Or.inl h
        · exact Or.inr ⟨z, List.mem_cons_of_mem x hz, hcz⟩

theorem digitChar_bounds (d : Nat) :
    48 ≤ (digitChar d).toNat ∧ (digitChar d).toNat ≤ 57 := by
  unfold digitChar
  split_ifs <;> decide

theorem natToDigitsAux_digits (fuel : Nat) :
    ∀ (n : Nat), ∀ c ∈ natToDigitsAux fuel n,
      48 ≤ c.toNat ∧ c.toNat ≤ 57 := by
  induction fuel with
  | zero =>
    intro n c hc
    simp [natToDigitsAux] at hc
  | succ fuel ih =>
    intro n c hc
    simp only [natToDigitsAux] at hc
    by_cases h : n < 10
    · rw [if_pos h] at hc
      simp only [List.mem_singleton] at hc
      subst hc
      exact digitChar_bounds n
    · rw [if_neg h] at hc
      rcases List.mem_append.mp hc with h1 | h1
      · exact ih (n / 10) c h1
      · simp only [List.mem_singleton] at h1
        subst h1
        exact digitChar_bounds (n % 10)

theorem natToDigits_digits (n : Nat) :
    ∀ c ∈ natToDigits n, 48 ≤ c.toNat ∧ c.toNat ≤ 57 :=
  natToDigitsAux_digits (n + 1) n

/-! ### Infrastructure lemmas about `sorted_data` -/

theorem sortedMultiset_coe (m : Multiset String) :
    (↑(sortedMultiset m) : Multiset String) = m := by
  induction m using Quotient.inductionOn with
  | _ l => exact Multiset.coe_eq_coe.mpr (List.perm_insertionSort _ l)

theorem sortedMultiset_sorted (m : Multiset String) :
    List.Sorted pyStrLe (sortedMultiset m) := by
  induction m using Quotient.inductionOn with
  | _ l => exact List.sorted_insertionSort _ l

theorem sorted_data_sorted (d : Finset String) :
    List.Sorted pyStrLe (sorted_data d) :=
  sortedMultiset_sorted d.val

theorem sorted_data_coe (d : Finset String) :
    (↑(sorted_data d) : Multiset String) = d.val :=
  sortedMultiset_coe d.val

theorem sorted_data_toFinset (d : Finset String) :
    (sorted_data d).toFinset = d := by
  show (↑(sorted_data d) : Multiset String).toFinset = d
  rw [sorted_data_coe, Finset.val_toFinset]

theorem sorted_data_nodup (d : Finset String) :
    (sorted_data d).Nodup := by
  have h1 := sorted_data_coe d
  have h2 := d.nodup
  rw [← h1] at h2
  exact Multiset.coe_nodup.mp h2

theorem sorted_data_mem (d : Finset String) (t : String) :
    t ∈ sorted_data d ↔ t ∈ d := by
  rw [← Multiset.mem_coe, sorted_data_coe]
  exact Iff.rfl

theorem keepLine_cons_true {c : Char} {m : List Char}
    (h1 : c ≠ ';') (h2 : c ≠ '#') : keepLine (c :: m) = true := by
  simp [keepLine, h1, h2]

/-! ### Claim C6 -/

/-- C6: `load_existing_data` returns the empty set (not an error) when
the artifact file is absent; when the file is present it returns the
set of whitespace-stripped lines, excluding blank lines and every line
beginning with `';'` or `'#'`. -/
theorem C6_load_contract :
    load_existing_data none = ∅ ∧
    ∀ content : List Char,
      load_existing_data (some content) =
        ((((splitUniv content).map pyStrip).filter keepLine).map
          String.mk).toFinset := by
  refine ⟨rfl, fun content => ?_⟩
  show (splitUniv content).foldl loadStep ∅ = _
  rw [loadStep_foldl]
  simp

/-! ### Claim C8 -/

/-- Every character of every line `save_data` emits is a printable
line character (no `'\n'`, no `'\r'`), provided the timestamp, the
source names and the tokens are newline-free. -/
theorem save_data_lines_clean (ts : String) (names : List String)
    (S : Finset String)
    (hts : ∀ c ∈ ts.data, c ≠ '\n' ∧ c ≠ '\r')
    (hnames : ∀ n ∈ names, ∀ c ∈ n.data, c ≠ '\n' ∧ c ≠ '\r')
    (hS : ∀ t ∈ S, ∀ c ∈ t.data, c ≠ '\n' ∧ c ≠ '\r') :
    ∀ l ∈ save_data_lines ts names S, ∀ c ∈ l, c ≠ '\n' ∧ c ≠ '\r' := by
  have hconst1 : ∀ c ∈ String.data ("; Updated at: "),
      c ≠ '\n' ∧ c ≠ '\r' := by decide
  have hconst2 : ∀ c ∈ String.data ("; Sources included: "),
      c ≠ '\n' ∧ c ≠ '\r' := by decide
  have hconst3 : ∀ c ∈ String.data ("; Total Entries: "),
      c ≠ '\n' ∧ c ≠ '\r' := by decide
  have hconst4 : ∀ c ∈ String.data ("; --------------------------------------------"),
      c ≠ '\n' ∧ c ≠ '\r' := by decide
  have hsep : ∀ c ∈ String.data (", "), c ≠ '\n' ∧ c ≠ '\r' := by decide
  intro l hl
  rcases List.mem_append.mp hl with hl | hl
  · simp only [List.mem_cons, List.not_mem_nil, or_false] at hl
    rcases hl with hl | hl | hl | hl
    · subst hl
      intro c hc
      rcases List.mem_append.mp hc with hc | hc
      · exact hconst1 c hc
      · exact hts c hc
    · subst hl
      intro c hc
      rcases List.mem_append.mp hc with hc | hc
      · exact hconst2 c hc
      · rcases mem_pyJoin _ _ hc with hc | ⟨x, hx, hcx⟩
        · exact hsep c hc
        · obtain ⟨n, hn, rfl⟩ := List.mem_map.mp hx
          exact hnames n hn c hcx
    · subst hl
      intro c hc
      rcases List.mem_append.mp hc with hc | hc
      · exact hconst3 c hc
      · have hb := natToDigits_digits S.card c hc
        constructor
        · intro e
          rw [e] at hb
          exact absurd hb (by decide)
        · intro e
          rw [e] at hb
          exact absurd hb (by decide)
    · subst hl
      exact hconst4
  · obtain ⟨t, ht, rfl⟩ := List.mem_map.mp hl
    exact hS t ((sorted_data_mem S t).mp ht)

/-- C8 (amended): for every set `S` of tokens that are non-empty,
stable under Python `strip`, do not begin with `';'` or `'#'`, and —
the amendment — contain no `'\n'` or `'\r'` character, and for a
timestamp and source names that are likewise newline-free,
`save_data` followed by `load_existing_data` yields exactly `S`. -/
theorem C8_round_trip (ts : String) (names : List String)
    (S : Finset String)
    (hts : ∀ c ∈ ts.data, c ≠ '\n' ∧ c ≠ '\r')
    (hnames : ∀ n ∈ names, ∀ c ∈ n.data, c ≠ '\n' ∧ c ≠ '\r')
    (hS : ∀ t ∈ S, t.data ≠ [] ∧ pyStrip t.data = t.data ∧
      t.data.head? ≠ some ';' ∧ t.data.head? ≠ some '#' ∧
      ∀ c ∈ t.data, c ≠ '\n' ∧ c ≠ '\r') :
    load_existing_data (some (save_data ts names S)) = S := by
  have hclean := save_data_lines_clean ts names S hts hnames
    (fun t ht => (hS t ht).2.2.2.2)
  have hnl : ∀ l ∈ save_data_lines ts names S, '\n' ∉ l :=
    fun l hl m => (hclean l hl _ m).1 rfl
  have hcr : '\r' ∉ ((save_data_lines ts names S).map (· ++ ['\n'])).flatten := by
    intro m
    obtain ⟨x, hx, hm⟩ := List.mem_flatten.mp m
    obtain ⟨l, hl, rfl⟩ := List.mem_map.mp hx
    rcases List.mem_append.mp hm with hm | hm
    · exact (hclean l hl _ hm).2 rfl
    · simp at hm
  have hsplit : splitUniv (save_data ts names S) = save_data_lines ts names S := by
    unfold splitUniv save_data
    rw [normalizeNewlines_of_no_cr _ hcr, splitLinesAux_flatten _ hnl]
  show (splitUniv (save_data ts names S)).foldl loadStep ∅ = S
  rw [hsplit, loadStep_foldl, Finset.empty_union]
  show (((
    ([(String.data ("; Updated at: ")) ++ ts.data,
      (String.data ("; Sources included: ")) ++
        pyJoin (String.data (", ")) (names.map String.data),
      (String.data ("; Total Entries: ")) ++ natToDigits S.card,
      String.data ("; --------------------------------------------")]
     ++ (sorted_data S).map String.data).map pyStrip).filter keepLine).map
        String.mk).toFinset = S
  rw [List.map_append, List.filter_append]
  have hhdr : ((([(String.data ("; Updated at: ")) ++ ts.data,
      (String.data ("; Sources included: ")) ++
        pyJoin (String.data (", ")) (names.map String.data),
      (String.data ("; Total Entries: ")) ++ natToDigits S.card,
      String.data ("; --------------------------------------------")] :
      List (List Char)).map pyStrip).filter keepLine) = [] := by
    rw [List.map_cons, List.map_cons, List.map_cons, List.map_cons,
      List.map_nil,
      List.filter_cons_of_neg
        (by simp only [Bool.not_eq_true]; exact keepLine_pyStrip_semi _),
      List.filter_cons_of_neg
        (by simp only [Bool.not_eq_true]; exact keepLine_pyStrip_semi _),
      List.filter_cons_of_neg
        (by simp only [Bool.not_eq_true]; exact keepLine_pyStrip_semi _),
      List.filter_cons_of_neg
        (by simp only [Bool.not_eq_true]; exact keepLine_pyStrip_semi _),
      List.filter_nil]
  rw [hhdr, List.nil_append]
  have htok_strip : ((sorted_data S).map String.data).map pyStrip =
      (sorted_data S).map String.data := by
    rw [List.map_map]
    refine List.map_congr_left (fun t ht => ?_)
    exact (hS t ((sorted_data_mem S t).mp ht)).2.1
  rw [htok_strip]
  have htok_keep : ((sorted_data S).map String.data).filter keepLine =
      (sorted_data S).map String.data := by
    refine List.filter_eq_self.mpr (fun l hl => ?_)
    obtain ⟨t, ht, rfl⟩ := List.mem_map.mp hl
    have hS' := hS t ((sorted_data_mem S t).mp ht)
    rcases hd : t.data with _ | ⟨c, m⟩
    · exact absurd hd hS'.1
    · refine keepLine_cons_true ?_ ?_
      · intro e
        apply hS'.2.2.1
        rw [hd, e]
        rfl
      · intro e
        apply hS'.2.2.2.1
        rw [hd, e]
        rfl
  rw [htok_keep, List.map_map]
  have hmk : (String.mk ∘ String.data) = (id : String → String) := by
    funext t
    cases t
    rfl
  rw [hmk, List.map_id]
  exact sorted_data_toFinset S

/-- Witness for `C8_round_trip` at a concrete input. -/
theorem C8_round_trip_witness :
    load_existing_data (some (save_data ("2025-01-01 00:00 WIB")
      ["abuseipdb"] ({"1.1.1.0/24", "github.com"} : Finset String))) =
      ({"1.1.1.0/24", "github.com"} : Finset String) :=
  C8_round_trip ("2025-01-01 00:00 WIB") ["abuseipdb"] _
    (by decide) (by decide) (by decide)

/-- C8 counterexample: the token `"a\nb"` is non-empty, stable under
`strip`, and does not begin with `';'` or `'#'` — it satisfies every
condition the claim puts on the set — yet writing the singleton set
containing it and loading the file back yields `{"a", "b"}`, not the
original set: the embedded newline splits the token into two lines. -/
theorem C8_newline_counterexample :
    (String.data ("a\nb")) ≠ [] ∧
    pyStrip (String.data ("a\nb")) = String.data ("a\nb") ∧
    (String.data ("a\nb")).head? ≠ some ';' ∧
    (String.data ("a\nb")).head? ≠ some '#' ∧
    load_existing_data (some (save_data ("") []
      ({("a\nb" : String)} : Finset String))) ≠
      ({("a\nb" : String)} : Finset String) ∧
    load_existing_data (some (save_data ("") []
      ({("a\nb" : String)} : Finset String))) =
      ({"a", "b"} : Finset String) := by decide

/-! ### Claim C1 -/

/-- C1 (amended): the token block `save_data` writes (everything after
the four header lines) is the elements of the set in ascending
lexicographic (code-point) string order — with no partitioning of
IPv4 prefixes, IPv6 prefixes, domains and opaque tokens, and no
numeric sorting — and this ordering is a function of the set alone:
it has no dependence on the timestamp or the source names, and
`sortedMultiset` is invariant under the enumeration order of the
underlying set, so repeated invocations on the same set emit the
identical token sequence. -/
theorem C1_write_order (ts ts2 : String) (ns ns2 : List String)
    (d : Finset String) :
    (save_data_lines ts ns d).drop 4 = (sorted_data d).map String.data ∧
    List.Sorted pyStrLe (sorted_data d) ∧
    (sorted_data d).toFinset = d ∧
    (sorted_data d).Nodup ∧
    (save_data_lines ts ns d).drop 4 = (save_data_lines ts2 ns2 d).drop 4 :=
  ⟨rfl, sorted_data_sorted d, sorted_data_toFinset d,
    sorted_data_nodup d, rfl⟩

/-- C1 counterexample: `"10.0.0.0/8"` and `"2.0.0.0/8"` are both IPv4
prefixes and the network address of `2.0.0.0/8` (33554432) is smaller
than that of `10.0.0.0/8` (167772160), so the claimed ordering rule
requires `2.0.0.0/8` first; `save_data` emits `10.0.0.0/8` first,
because it sorts the raw strings lexicographically and `'1' < '2'`. -/
theorem C1_order_counterexample :
    (save_data_lines ("t") [] ({"10.0.0.0/8", "2.0.0.0/8"} :
      Finset String)).drop 4 =
      [String.data ("10.0.0.0/8"), String.data ("2.0.0.0/8")] ∧
    parseIPv4Network (String.data ("10.0.0.0/8")) = some (167772160, 8) ∧
    parseIPv4Network (String.data ("2.0.0.0/8")) = some (33554432, 8) ∧
    33554432 < 167772160 := by decide

/-! ### Claim C2 -/

/-- C2 counterexample: merging the plugin result
`{'pass_ip': {"1.1.1.1"}}` into a state whose `pass_ip` set was loaded
as `{"1.1.1.0/24"}` does not produce the claimed canonicalized set
`{"1.1.1.0/24", "1.1.1.1/32"}` — `run_plugins` unions the raw strings
and never rewrites `"1.1.1.1"` to `"1.1.1.1/32"`. -/
theorem C2_no_canonicalization_counterexample :
    (runPlugins [⟨"p1", .ok [("pass_ip", ({"1.1.1.1"} : Finset String))]⟩]
      ⟨∅, {"1.1.1.0/24"}, ∅, ∅⟩).1.pass_ip ≠
      ({"1.1.1.0/24", "1.1.1.1/32"} : Finset String) := by decide

/-- C2 (amended): the Aggregation Store applies no canonicalization on
ingest; new tokens are unioned in as raw strings, so merging
`{'pass_ip': {"1.1.1.1"}}` into a `pass_ip` set containing
`"1.1.1.0/24"` yields `{"1.1.1.0/24", "1.1.1.1"}` — the bare address
is kept verbatim, not re-emitted as `"1.1.1.1/32"`. -/
theorem C2_raw_merge :
    (runPlugins [⟨"p1", .ok [("pass_ip", ({"1.1.1.1"} : Finset String))]⟩]
      ⟨∅, {"1.1.1.0/24"}, ∅, ∅⟩).1.pass_ip =
      ({"1.1.1.0/24", "1.1.1.1"} : Finset String) := by decide

/-! ### Claim C3 -/

/-- C3 counterexample: `"1.1.1.1"` and `"1.1.1.1/32"` have the same
canonical form under the specification's canonicalizer, yet merging
one into a set containing the other keeps both entries — duplicates
by canonical form do not collapse, so merge is not set union on
canonical token forms. -/
theorem C3_canonical_duplicates_counterexample :
    canonicalizeSpec "1.1.1.1" = canonicalizeSpec "1.1.1.1/32" ∧
    (mergeKV (mergeKV ⟨∅, ∅, ∅, ∅⟩ ("pass_ip", {"1.1.1.1/32"}))
      ("pass_ip", {"1.1.1.1"})).pass_ip =
      ({"1.1.1.1/32", "1.1.1.1"} : Finset String) ∧
    ({"1.1.1.1/32", "1.1.1.1"} : Finset String).card = 2 := by decide

theorem mergeKV_comm (st : AggData) (k : String) (a b : Finset String) :
    mergeKV (mergeKV st (k, a)) (k, b) =
      mergeKV (mergeKV st (k, b)) (k, a) := by
  unfold mergeKV
  split_ifs <;>
    simp_all [Finset.union_right_comm, Finset.union_comm,
      Finset.union_left_comm]

theorem mergeKV_idem (st : AggData) (kv : String × Finset String) :
    mergeKV (mergeKV st kv) kv = mergeKV st kv := by
  unfold mergeKV
  split_ifs <;> simp_all [Finset.union_assoc]

/-- C3 (amended): merge is pure set union on the raw token strings
(not on canonical forms): it is commutative and idempotent — merging
the same plugin output a second time changes nothing — and duplicates
that are identical strings collapse silently: when two plugins both
return the domain `"github.com"` for `whitelist_domain`, the final set
contains exactly one `"github.com"` entry. -/
theorem C3_merge_union :
    (∀ (st : AggData) (k : String) (a b : Finset String),
      mergeKV (mergeKV st (k, a)) (k, b) =
        mergeKV (mergeKV st (k, b)) (k, a)) ∧
    (∀ (st : AggData) (kv : String × Finset String),
      mergeKV (mergeKV st kv) kv = mergeKV st kv) ∧
    (runPlugins
      [⟨"plugin_a", .ok [("whitelist_domain", ({"github.com"} : Finset String))]⟩,
       ⟨"plugin_b", .ok [("whitelist_domain", ({"github.com"} : Finset String))]⟩]
      ⟨∅, ∅, ∅, ∅⟩).1.whitelist_domain = ({"github.com"} : Finset String) :=
  ⟨mergeKV_comm, mergeKV_idem, by decide⟩

/-! ### Claim C4 -/

/-- C4: a plugin whose `fetch()` raises is caught at the registry
boundary and contributes nothing: the whole run — the final aggregated
data, the recorded sources, and every written artifact — is exactly
what it would have been had the failing plugin not been discovered at
all; in particular every other plugin is still processed and its
results are still merged and written. -/
theorem C4_plugin_isolation (pre post : List Plugin) (p : Plugin)
    (init : AggData) (ts : String) (h : p.fetch = .error ()) :
    runPlugins (pre ++ p :: post) init = runPlugins (pre ++ post) init ∧
    managerRun (pre ++ p :: post) init ts =
      managerRun (pre ++ post) init ts := by
  have hp : ∀ st, processPlugin st p = st := fun st => by
    unfold processPlugin
    rw [h]
  have h1 : runPlugins (pre ++ p :: post) init =
      runPlugins (pre ++ post) init := by
    unfold runPlugins
    rw [List.foldl_append, List.foldl_append, List.foldl_cons, hp]
  exact ⟨h1, by unfold managerRun; rw [h1]⟩

/-- Witness for `C4_plugin_isolation` at concrete plugins. -/
theorem C4_plugin_isolation_witness :
    managerRun [⟨"goodA", .ok [("drop_ip", ({"9.9.9.9"} : Finset String))]⟩,
      ⟨"bad", .error ()⟩,
      ⟨"goodB", .ok [("whitelist_domain", ({"github.com"} : Finset String))]⟩]
      ⟨∅, ∅, ∅, ∅⟩ ("t") =
    managerRun [⟨"goodA", .ok [("drop_ip", ({"9.9.9.9"} : Finset String))]⟩,
      ⟨"goodB", .ok [("whitelist_domain", ({"github.com"} : Finset String))]⟩]
      ⟨∅, ∅, ∅, ∅⟩ ("t") :=
  (C4_plugin_isolation
    [⟨"goodA", .ok [("drop_ip", ({"9.9.9.9"} : Finset String))]⟩]
    [⟨"goodB", .ok [("whitelist_domain", ({"github.com"} : Finset String))]⟩]
    ⟨"bad", .error ()⟩ ⟨∅, ∅, ∅, ∅⟩ ("t") rfl).2

/-! ### Claim C7 -/

theorem aggLE_refl (x : AggData) : aggLE x x :=
  ⟨Finset.Subset.refl _, Finset.Subset.refl _, Finset.Subset.refl _,
    Finset.Subset.refl _⟩

theorem aggLE_trans {x y z : AggData} (h1 : aggLE x y) (h2 : aggLE y z) :
    aggLE x z :=
  ⟨h1.1.trans h2.1, h1.2.1.trans h2.2.1, h1.2.2.1.trans h2.2.2.1,
    h1.2.2.2.trans h2.2.2.2⟩

theorem mergeKV_le (st : AggData) (kv : String × Finset String) :
    aggLE st (mergeKV st kv) := by
  unfold mergeKV aggLE
  split_ifs <;>
    exact ⟨by simp [Finset.subset_union_left], by simp [Finset.subset_union_left],
      by simp [Finset.subset_union_left], by simp [Finset.subset_union_left]⟩

theorem foldl_mergeKV_le (result : List (String × Finset String)) :
    ∀ st : AggData, aggLE st (result.foldl mergeKV st) := by
  induction result with
  | nil => exact fun st => aggLE_refl st
  | cons kv rest ih =>
    intro st
    rw [List.foldl_cons]
    exact aggLE_trans (mergeKV_le st kv) (ih (mergeKV st kv))

theorem processPlugin_le (stp : AggData × List String) (p : Plugin) :
    aggLE stp.1 (processPlugin stp p).1 := by
  unfold processPlugin
  cases p.fetch with
  | error e => exact aggLE_refl _
  | ok r =>
    by_cases hr : r.isEmpty
    · simp only [hr, if_pos]
      exact aggLE_refl _
    · simp only [hr, Bool.false_eq_true, if_neg, if_false]
      exact foldl_mergeKV_le r stp.1

theorem foldl_processPlugin_le (plugins : List Plugin) :
    ∀ stp : AggData × List String,
      aggLE stp.1 (plugins.foldl processPlugin stp).1 := by
  induction plugins with
  | nil => exact fun stp => aggLE_refl _
  | cons p rest ih =>
    intro stp
    rw [List.foldl_cons]
    exact aggLE_trans (processPlugin_le stp p) (ih (processPlugin stp p))

theorem foldl_processPlugin_empty (plugins : List Plugin) :
    ∀ stp : AggData × List String,
      (∀ p ∈ plugins, p.fetch = .ok []) →
        plugins.foldl processPlugin stp = stp := by
  induction plugins with
  | nil => exact fun stp _ => rfl
  | cons p rest ih =>
    intro stp h
    rw [List.foldl_cons]
    have hp : processPlugin stp p = stp := by
      unfold processPlugin
      rw [h p (List.mem_cons_self p rest)]
      simp
    rw [hp]
    exact ih stp (fun q hq => h q (List.mem_cons_of_mem p hq))

theorem fetch_abuseipdb_le (resp : Option (Finset String))
    (existing : Finset String) : existing ⊆ fetch_abuseipdb resp existing := by
  cases resp with
  | none => exact Finset.Subset.refl _
  | some new_ips => exact Finset.subset_union_left

theorem fetch_google_le (new_ips existing : Finset String) :
    existing ⊆ fetch_google new_ips existing :=
  Finset.subset_union_left

theorem fetch_cloudflare_le (new_ips existing : Finset String) :
    existing ⊆ fetch_cloudflare new_ips existing :=
  Finset.subset_union_left

theorem fetch_aws_le (new_ips existing : Finset String) :
    existing ⊆ fetch_aws new_ips existing :=
  Finset.subset_union_left

theorem fetch_github_le_ips (gh : Option (Finset String × Finset String))
    (pass wl : Finset String) : pass ⊆ (fetch_github gh pass wl).1 := by
  rcases gh with _ | ⟨ips, ds⟩
  · exact Finset.Subset.refl _
  · exact Finset.subset_union_left

theorem fetch_github_le_domains (gh : Option (Finset String × Finset String))
    (pass wl : Finset String) : wl ⊆ (fetch_github gh pass wl).2 := by
  rcases gh with _ | ⟨ips, ds⟩
  · exact Finset.Subset.refl _
  · exact Finset.subset_union_left

/-- C7: the aggregation never removes entries.  In the manager, the
final state of every category is a superset of the loaded state, and
a run in which every plugin returns an empty dict (merging an empty
new set) leaves every category exactly as loaded; `mergeKV` with an
empty value set is the identity; and in `unified_updater.main` each of
the four loaded sets is included in the corresponding set handed to
`save_to_file`. -/
theorem C7_monotone_growth (plugins : List Plugin) (init st : AggData)
    (k : String) (dropL passL wlL blL : Finset String)
    (abuse : Option (Finset String)) (goog cf : Finset String)
    (gh : Option (Finset String × Finset String)) (aws : Finset String) :
    aggLE init (runPlugins plugins init).1 ∧
    mergeKV st (k, ∅) = st ∧
    ((∀ p ∈ plugins, p.fetch = .ok []) →
      (runPlugins plugins init).1 = init) ∧
    (dropL ⊆ (unified_main dropL passL wlL blL abuse goog cf gh aws).1 ∧
     passL ⊆ (unified_main dropL passL wlL blL abuse goog cf gh aws).2.1 ∧
     wlL ⊆ (unified_main dropL passL wlL blL abuse goog cf gh aws).2.2.1 ∧
     blL ⊆ (unified_main dropL passL wlL blL abuse goog cf gh aws).2.2.2) := by
  refine ⟨foldl_processPlugin_le plugins (init, []), by simp [mergeKV],
    fun h => congrArg Prod.fst (foldl_processPlugin_empty plugins (init, []) h),
    ?_, ?_, ?_, ?_⟩
  · show dropL ⊆ fetch_abuseipdb abuse dropL
    exact fetch_abuseipdb_le abuse dropL
  · show passL ⊆ fetch_aws aws
      (fetch_github gh (fetch_cloudflare cf (fetch_google goog passL)) wlL).1
    exact (((fetch_google_le goog passL).trans
      (fetch_cloudflare_le cf _)).trans
      (fetch_github_le_ips gh _ wlL)).trans
      (fetch_aws_le aws _)
  · show wlL ⊆ insert ("aws.amazon.com") (insert ("amazonaws.com")
      (fetch_github gh (fetch_cloudflare cf (fetch_google goog passL)) wlL).2)
    exact ((fetch_github_le_domains gh _ wlL).trans
      (Finset.subset_insert _ _)).trans (Finset.subset_insert _ _)
  · exact Finset.Subset.refl blL

/-- Witness for `C7_monotone_growth`: a run whose only plugin returns
an empty dict reproduces the loaded data unchanged. -/
theorem C7_monotone_growth_witness :
    (runPlugins [⟨"emptyp", .ok []⟩]
      ⟨{"9.9.9.9"}, {"1.1.1.0/24"}, {"github.com"}, ∅⟩).1 =
      ⟨{"9.9.9.9"}, {"1.1.1.0/24"}, {"github.com"}, ∅⟩ :=
  (C7_monotone_growth [⟨"emptyp", .ok []⟩]
    ⟨{"9.9.9.9"}, {"1.1.1.0/24"}, {"github.com"}, ∅⟩ ⟨∅, ∅, ∅, ∅⟩
    ("k") ∅ ∅ ∅ ∅ none ∅ ∅ none ∅).2.2.1
    (fun p hp => by rw [List.mem_singleton] at hp; subst hp; rfl)

/-! ### Claim C9 -/

theorem runPlugins_sources_aux (plugins : List Plugin) :
    ∀ stp : AggData × List String,
      (plugins.foldl processPlugin stp).2 =
        stp.2 ++ (plugins.filter pluginContributes).map Plugin.name := by
  induction plugins with
  | nil =>
    intro stp
    simp
  | cons p rest ih =>
    intro stp
    rw [List.foldl_cons, ih]
    cases hf : p.fetch with
    | error e =>
      have h1 : processPlugin stp p = stp := by
        unfold processPlugin
        rw [hf]
      have h2 : pluginContributes p = false := by
        unfold pluginContributes
        rw [hf]
      rw [h1, List.filter_cons_of_neg (by simp [h2])]
    | ok r =>
      by_cases hr : r.isEmpty
      · have h1 : processPlugin stp p = stp := by
          unfold processPlugin
          rw [hf]
          simp [hr]
        have h2 : pluginContributes p = false := by
          unfold pluginContributes
          rw [hf]
          simp [hr]
        rw [h1, List.filter_cons_of_neg (by simp [h2])]
      · have h1 : processPlugin stp p =
            (r.foldl mergeKV stp.1, stp.2 ++ [p.name]) := by
          unfold processPlugin
          rw [hf]
          simp [hr]
        have h2 : pluginContributes p = true := by
          unfold pluginContributes
          rw [hf]
          simp [hr]
        rw [h1, List.filter_cons_of_pos (by simp [h2])]
        simp

theorem mergeKV_unknown_key (st : AggData) (k : String) (v : Finset String)
    (hk : k ≠ "drop_ip" ∧ k ≠ "pass_ip" ∧ k ≠ "whitelist_domain" ∧
      k ≠ "blacklist_domain") :
    mergeKV st (k, v) = st := by
  unfold mergeKV
  split_ifs <;> simp_all

/-- C9 (amended): a plugin is appended to `active_sources` iff its
`fetch()` returned without raising and returned a non-empty mapping —
even a mapping whose every set is empty or whose every category name
is unrecognized counts; plugins that raise or return an empty mapping
are skipped without aborting the run; a category name outside the four
known ones is dropped silently (`mergeKV` is the identity for it), and
the run writes exactly the four fixed artifact files, so an unknown
category never creates a new output file. -/
theorem C9_source_recording (plugins : List Plugin) (init : AggData)
    (st : AggData) (k : String) (v : Finset String) (agg : AggData)
    (sources : List String) (ts : String)
    (hk : k ≠ "drop_ip" ∧ k ≠ "pass_ip" ∧ k ≠ "whitelist_domain" ∧
      k ≠ "blacklist_domain") :
    (runPlugins plugins init).2 =
      (plugins.filter pluginContributes).map Plugin.name ∧
    mergeKV st (k, v) = st ∧
    (managerFiles agg sources ts).map Prod.fst =
      ["drop.txt", "pass.txt", "whitelist-domain.txt",
        "blacklist-domain.txt"] := by
  refine ⟨?_, mergeKV_unknown_key st k v hk, rfl⟩
  unfold runPlugins
  rw [runPlugins_sources_aux]
  simp

/-- Witness for `C9_source_recording`: an unrecognized category is
dropped without any effect on the state. -/
theorem C9_source_recording_witness :
    mergeKV ⟨∅, ∅, ∅, ∅⟩ ("bogus_category", ({"x"} : Finset String)) =
      ⟨∅, ∅, ∅, ∅⟩ :=
  (C9_source_recording [] ⟨∅, ∅, ∅, ∅⟩ ⟨∅, ∅, ∅, ∅⟩ ("bogus_category")
    ({"x"} : Finset String) ⟨∅, ∅, ∅, ∅⟩ [] ("t") (by decide)).2.1

/-- C9 counterexample: a plugin whose result is the non-empty mapping
`{'drop_ip': set()}` contributes no non-empty category — the aggregated
state is unchanged — and a plugin whose only key is unrecognized
contributes nothing either, yet both are recorded in
`active_sources`, contradicting the claimed "if and only if at least
one non-empty category". -/
theorem C9_empty_category_counterexample :
    (runPlugins [⟨"s", .ok [("drop_ip", (∅ : Finset String))]⟩]
      ⟨∅, ∅, ∅, ∅⟩).2 = ["s"] ∧
    (runPlugins [⟨"s", .ok [("drop_ip", (∅ : Finset String))]⟩]
      ⟨∅, ∅, ∅, ∅⟩).1 = ⟨∅, ∅, ∅, ∅⟩ ∧
    (runPlugins [⟨"u", .ok [("bogus_category", ({"x"} : Finset String))]⟩]
      ⟨∅, ∅, ∅, ∅⟩).2 = ["u"] ∧
    (runPlugins [⟨"u", .ok [("bogus_category", ({"x"} : Finset String))]⟩]
      ⟨∅, ∅, ∅, ∅⟩).1 = ⟨∅, ∅, ∅, ∅⟩ := by decide

/-! ### Claim C5 -/

/-- C5 counterexample: in the manager's write loop an I/O failure on
the first category (`drop.txt`) aborts the whole loop — no file at all
is written, although the file system would have accepted the write of
`pass.txt` and the two domain files.  The failure is not contained to
the failing category. -/
theorem C5_manager_write_abort_counterexample :
    writeSeq (fun f => decide (f ≠ "drop.txt"))
      (managerFiles ⟨∅, ∅, ∅, ∅⟩ [] ("t")) = ([], some ("drop.txt")) ∧
    (fun f => decide (f ≠ "drop.txt")) "pass.txt" = true := by decide

theorem unifiedSaveAll_length (cw : String → Bool)
    (entries : List (String × List Char)) :
    (unifiedSaveAll cw entries).length = entries.length := by
  simp [unifiedSaveAll]

theorem unifiedSaveAll_filter_eq (cw1 cw2 : String → Bool) (f : String)
    (h : cw1 f = cw2 f) (entries : List (String × List Char)) :
    (unifiedSaveAll cw1 entries).filter (fun e => e.1 == f) =
      (unifiedSaveAll cw2 entries).filter (fun e => e.1 == f) := by
  induction entries with
  | nil => rfl
  | cons e rest ih =>
    simp only [unifiedSaveAll, List.map_cons, List.filter_cons] at ih ⊢
    by_cases he : e.1 = f
    · rw [he, h]
      simp only [ih]
    · have hne : (e.1 == f) = false := by simp [he]
      rw [hne]
      simp only [Bool.false_eq_true, if_false, ih]

/-- C5 (amended, for `unified_updater.py`): `save_to_file` catches its
own I/O errors, so in its save phase every category's write is
attempted (the outcome list has one entry per category) and the
outcome recorded for a file depends only on whether writing that file
itself succeeds — failures of other categories' writes cannot change
it.  (In `scripts/manager.py` this isolation does not hold: see the
counterexample.  The error is printed when it happens; neither script
builds a final failure summary.) -/
theorem C5_unified_write_isolation (cw1 cw2 : String → Bool)
    (entries : List (String × List Char)) (f : String)
    (h : cw1 f = cw2 f) :
    (unifiedSaveAll cw1 entries).filter (fun e => e.1 == f) =
      (unifiedSaveAll cw2 entries).filter (fun e => e.1 == f) ∧
    (unifiedSaveAll cw1 entries).length = entries.length :=
  ⟨unifiedSaveAll_filter_eq cw1 cw2 f h entries,
    unifiedSaveAll_length cw1 entries⟩

/-- Witness for `C5_unified_write_isolation`: the write outcome for
`pass.txt` is the same whether every write succeeds or the `drop.txt`
write fails. -/
theorem C5_unified_write_isolation_witness :
    (unifiedSaveAll (fun _ => true)
      [("drop.txt", ['a']), ("pass.txt", ['b'])]).filter
        (fun e => e.1 == "pass.txt") =
    (unifiedSaveAll (fun g => g == "pass.txt")
      [("drop.txt", ['a']), ("pass.txt", ['b'])]).filter
        (fun e => e.1 == "pass.txt") :=
  (C5_unified_write_isolation (fun _ => true) (fun g => g == "pass.txt")
    [("drop.txt", ['a']), ("pass.txt", ['b'])] ("pass.txt")
    (by decide)).1

/-! ### Claim C10 -/

/-- C10: on every completed run of the unified updater, the
`whitelist_domain` set handed to its artifact write contains
`"amazonaws.com"` and `"aws.amazon.com"` no matter which upstream
fetches fail — `main` inserts them itself — and whenever the GitHub
fetch succeeds it also contains `"github.com"` and
`"githubusercontent.com"`, inserted by `fetch_github` itself rather
than taken from the upstream response. -/
theorem C10_hardcoded_domains (dropL passL wlL blL : Finset String)
    (abuse : Option (Finset String)) (goog cf : Finset String)
    (gh : Option (Finset String × Finset String)) (aws : Finset String) :
    ("amazonaws.com" : String) ∈
      (unified_main dropL passL wlL blL abuse goog cf gh aws).2.2.1 ∧
    ("aws.amazon.com" : String) ∈
      (unified_main dropL passL wlL blL abuse goog cf gh aws).2.2.1 ∧
    (∀ g, gh = some g →
      ("github.com" : String) ∈
        (unified_main dropL passL wlL blL abuse goog cf gh aws).2.2.1 ∧
      ("githubusercontent.com" : String) ∈
        (unified_main dropL passL wlL blL abuse goog cf gh aws).2.2.1) := by
  refine ⟨?_, ?_, ?_⟩
  · show ("amazonaws.com" : String) ∈ insert ("aws.amazon.com")
      (insert ("amazonaws.com")
        (fetch_github gh (fetch_cloudflare cf (fetch_google goog passL)) wlL).2)
    simp
  · show ("aws.amazon.com" : String) ∈ insert ("aws.amazon.com")
      (insert ("amazonaws.com")
        (fetch_github gh (fetch_cloudflare cf (fetch_google goog passL)) wlL).2)
    simp
  · rintro ⟨ips, ds⟩ rfl
    constructor
    · show ("github.com" : String) ∈ insert ("aws.amazon.com")
        (insert ("amazonaws.com")
          (fetch_github (some (ips, ds))
            (fetch_cloudflare cf (fetch_google goog passL)) wlL).2)
      simp [fetch_github]
    · show ("githubusercontent.com" : String) ∈ insert ("aws.amazon.com")
        (insert ("amazonaws.com")
          (fetch_github (some (ips, ds))
            (fetch_cloudflare cf (fetch_google goog passL)) wlL).2)
      simp [fetch_github]

/-- Witness for `C10_hardcoded_domains`: with every upstream fetch
failed except a GitHub response carrying no domains at all, the
whitelist still receives the four hardcoded domains. -/
theorem C10_hardcoded_domains_witness :
    ("github.com" : String) ∈
      (unified_main ∅ ∅ ∅ ∅ none ∅ ∅ (some (∅, ∅)) ∅).2.2.1 ∧
    ("githubusercontent.com" : String) ∈
      (unified_main ∅ ∅ ∅ ∅ none ∅ ∅ (some (∅, ∅)) ∅).2.2.1 :=
  (C10_hardcoded_domains ∅ ∅ ∅ ∅ none ∅ ∅ (some (∅, ∅)) ∅).2.2
    (∅, ∅) rfl

end Hosts
